import Mathlib

/-!
Verification development for the GambitVS2 repository.

The repository holds two command-line front-ends of the Gambit project:
`enummixed.cc` (compute all Nash equilibria of a two-player game by
enumerating extreme points of the best-response polytopes) and
`src/tools/gt/nfgipa.cc` (iterated polymatrix approximation).  The solver
core (`gambit/nash/enummixed.h`, `gambit/nash/ipa.h`, `ReadGame`, the
renderers) is not part of the repository source; where a claim needs it,
it is modelled from the specification and marked as such in a doc comment.

We embed the two `main` functions faithfully: the hand-rolled option
loop (which replaces `getopt`), the `optind = argc - 1` input selection,
the solver dispatch, `PrintCliques`, and the `try`/`catch` error path.
C strings are modelled as Lean strings with an explicit NUL default for
out-of-range character reads.
-/

/-- Models reading character `k` of a C string: within bounds it is the
character, one past the end it is the NUL terminator (reads further out
would be undefined; the embedded code only reads indices 0 and 1). -/
def cchar (s : String) (k : Nat) : Char := s.data.getD k (Char.ofNat 0)

/-- Models C `atoi` applied to the digits of a string: accumulate decimal
digits left to right, stopping at the first non-digit. -/
def atoiDigits : List Char → Int → Int
  | [], acc => acc
  | c :: cs, acc => if c.isDigit then atoiDigits cs (acc * 10 + ((c.toNat : Int) - 48)) else acc

/-- Models C `atoi`: skip leading whitespace, read an optional sign, then
decimal digits; anything unparsable yields 0.  (C-level overflow is not
modelled; no claim depends on it.) -/
def atoi (s : String) : Int :=
  match s.data.dropWhile Char.isWhitespace with
  | '-' :: rest => - atoiDigits rest 0
  | '+' :: rest => atoiDigits rest 0
  | t => atoiDigits t 0

/-- Option state of the `enummixed` front-end (`main`, part_000 line 80-82):
`useFloat = false, uselrs = false, quiet = false, eliminate = true,
showConnect = false, numDecimals = 6`. -/
structure EnumOptions where
  useFloat : Bool
  uselrs : Bool
  quiet : Bool
  eliminate : Bool
  showConnect : Bool
  numDecimals : Int
deriving DecidableEq

/-- Initial values of the `enummixed` option variables. -/
def EnumOptions.init : EnumOptions :=
  { useFloat := false, uselrs := false, quiet := false, eliminate := true,
    showConnect := false, numDecimals := 6 }

/-- Option state of the `nfgipa` front-end (nfgipa.cc lines 62-63):
`quiet = false, verbose = false, numDecimals = 6`. -/
structure IpaOptions where
  quiet : Bool
  verbose : Bool
  numDecimals : Int
deriving DecidableEq

/-- Initial values of the `nfgipa` option variables. -/
def IpaOptions.init : IpaOptions :=
  { quiet := false, verbose := false, numDecimals := 6 }

/-- Outcome of one `switch (optopt)` dispatch in the option loop. -/
inductive OptStep (σ : Type) where
  /-- a `break` out of the switch with (possibly updated) option state -/
  | cont (s : σ)
  /-- models `case 'v'`: `PrintBanner(std::cerr); exit(1)` -/
  | bannerExit
  /-- models `case 'h'`: `PrintHelp(argv[0])`, which prints and calls `exit(1)` -/
  | helpExit
  /-- models `case '?'`: prints the Unknown option diagnostic and returns 1 -/
  | unknownOpt (c : Char)
  /-- the `default:` branch: `abort()` -/
  | optAbort
  /-- models `case 'd'` with `optarg = argv[argc]`, the null pointer: `atoi(NULL)` -/
  | nullAtoi
deriving DecidableEq

/-- The `switch (optopt)` of the `enummixed` `main` (part_000 lines 91-125),
case labels in source order: v, d, D, L, h, c, S, q, `?`, default. -/
def enumStep (s : EnumOptions) (c : Char) (arg : Option String) : OptStep EnumOptions :=
  if c = 'v' then .bannerExit
  else if c = 'd' then
    match arg with
    | some t => .cont { s with useFloat := true, numDecimals := atoi t }
    | none => .nullAtoi
  else if c = 'D' then .cont { s with eliminate := false }
  else if c = 'L' then .cont { s with uselrs := true }
  else if c = 'h' then .helpExit
  else if c = 'c' then .cont { s with showConnect := true }
  else if c = 'S' then .cont s
  else if c = 'q' then .cont { s with quiet := true }
  else if c = '?' then .unknownOpt c
  else .optAbort

/-- The `switch (optopt)` of the `nfgipa` `main` (nfgipa.cc lines 73-100),
case labels in source order: v, q, V, d, S, h, `?`, default. -/
def ipaStep (s : IpaOptions) (c : Char) (arg : Option String) : OptStep IpaOptions :=
  if c = 'v' then .bannerExit
  else if c = 'q' then .cont { s with quiet := true }
  else if c = 'V' then .cont { s with verbose := true }
  else if c = 'd' then
    match arg with
    | some t => .cont { s with numDecimals := atoi t }
    | none => .nullAtoi
  else if c = 'S' then .cont s
  else if c = 'h' then .helpExit
  else if c = '?' then .unknownOpt c
  else .optAbort

/-- Result of running the whole option loop. -/
inductive ParseResult (σ : Type) where
  /-- the loop ran to completion with final option state `s` -/
  | done (s : σ)
  | bannerExit
  | helpExit
  | unknownOpt (c : Char)
  | optAbort
  | nullAtoi
deriving DecidableEq

/-- The option loop `for (int i = 1; i < argc; i++)` (part_000 lines 85-126,
nfgipa.cc lines 67-101), with `fuel = argc - i` iterations left.  Each
iteration skips arguments not starting with a dash, otherwise reads
`optarg = argv[i + 1]` (`none` models the null terminator `argv[argc]`)
and `optopt = argv[i][1]` and dispatches the switch. -/
def parseGo {σ : Type} (step : σ → Char → Option String → OptStep σ)
    (argv : List String) : Nat → Nat → σ → ParseResult σ
  | 0, _, s => .done s
  | fuel + 1, i, s =>
    let a := argv.getD i ""
    if cchar a 0 ≠ '-' then parseGo step argv fuel (i + 1) s
    else
      match step s (cchar a 1) (argv.get? (i + 1)) with
      | .cont s' => parseGo step argv fuel (i + 1) s'
      | .bannerExit => .bannerExit
      | .helpExit => .helpExit
      | .unknownOpt c => .unknownOpt c
      | .optAbort => .optAbort
      | .nullAtoi => .nullAtoi

/-- The full option loop, from `i = 1` to `argc - 1`. -/
def parseArgs {σ : Type} (step : σ → Char → Option String → OptStep σ)
    (argv : List String) (init : σ) : ParseResult σ :=
  parseGo step argv (argv.length - 1) 1 init

/-- Where the game is read from after option processing. -/
inductive InputSource where
  | stdin
  | file (path : String)
deriving DecidableEq

/-- Input selection of both front-ends (part_000 lines 132-143, nfgipa.cc
lines 107-118): `optind` was set to `argc - 1`, and the file branch is
taken when `optind < argc`. -/
def selectStream (argv : List String) : InputSource :=
  let argc := argv.length
  let optind := argc - 1
  if optind < argc then .file (argv.getD optind "") else .stdin

/-- The first banner line of `enummixed` (the remaining banner lines carry
version and copyright text and are modelled as part of the same event). -/
def enummixedBanner : String := "Compute Nash equilibria by enumerating extreme points"

/-- The first banner line of `nfgipa`. -/
def ipaBanner : String := "Compute Nash equilibria using iterated polymatrix approximation"

/-- The usage text printed by `PrintHelp` after the banner. -/
def usageLine (prog : String) : String := "Usage: " ++ prog ++ " [OPTIONS] [file]"

/-- The `case '?'` diagnostic, with the `isprint` test on the option
character (quoting punctuation of the C message is omitted). -/
def unknownOptionLine (prog : String) (c : Char) : String :=
  if 32 ≤ c.toNat ∧ c.toNat ≤ 126 then prog ++ ": Unknown option -" ++ c.toString
  else prog ++ ": Unknown option character \\x" ++ c.toString

/-- The diagnostic built when opening the game file fails (part_000 lines
136-141): `argv[0] << ": " << argv[optind]`, handed to `perror` (which
appends the system error text). -/
def openFailLine (prog path : String) : String := prog ++ ": " ++ path

/-- Overall outcome of a front-end run. -/
inductive MainResult (P : Type) where
  /-- process returns `exitCode`, having rendered `stdout` profile lines
  (profile, label) and written `stderr` lines -/
  | normal (exitCode : Nat) (stdout : List (P × String)) (stderr : List String)
  /-- the `default:` branch of the option switch called `abort()` -/
  | runAborted
  /-- here `atoi` was handed the null pointer `argv[argc]` (undefined behavior) -/
  | undefinedRead
deriving DecidableEq

/-- Environment of a run: what opening and reading each named game file
yields (`none`: the open fails), and what reading standard input yields. -/
structure FileEnv (G : Type) where
  openGame : String → Option (Except String G)
  stdinGame : Except String G

/-- Modelled from the spec: the enumeration core
(`gambit/nash/enummixed.h`, absent from src/).  `SolveDetailed` renders a
sequence of equilibrium profiles through the renderer and returns a
solution whose `GetCliques` gives the clique partition, or throws a
`std::runtime_error` (numeric instability); one field per numeric domain.
The lrs engine (`EnumMixedLrsStrategySolver::Solve`) has, per the spec,
the "same output contract" for the equilibria in the rational domain, so
the model derives its profile sequence from the rational field. -/
structure EnumCore (G P : Type) where
  solveDetailedRat : G → Except String (List P × List (List P))
  solveDetailedFloat : G → Except String (List P × List (List P))

/-- The template function `PrintCliques` (part_000 lines 37-47), inner
recursion: clique number `cl` labels every profile of the current clique
with `"convex-" + lexical_cast<string>(cl)`, in stored order. -/
def printCliquesGo {P : Type} : List (List P) → Nat → List (P × String)
  | [], _ => []
  | c :: rest, cl => c.map (fun p => (p, "convex-" ++ toString cl)) ++ printCliquesGo rest (cl + 1)

/-- The function `PrintCliques`: cliques are numbered from 1. -/
def PrintCliques {P : Type} (cliques : List (List P)) : List (P × String) :=
  printCliquesGo cliques 1

/-- Engine dispatch of the `try` block (part_000 lines 147-177): `-L`
selects the lrs engine (`Solve` only, so no clique data is retained),
otherwise `-d` selects the floating solver and the default the rational
solver, both via `SolveDetailed`. -/
def coreOutcome {G P : Type} (core : EnumCore G P) (opts : EnumOptions) (g : G) :
    Except String (List P × List (List P)) :=
  if opts.uselrs then (core.solveDetailedRat g).map (fun r => (r.1, []))
  else if opts.useFloat then core.solveDetailedFloat g
  else core.solveDetailedRat g

/-- Rendering of a solved run: each equilibrium profile with the default
label "NE", then, when `-c` was given, the `PrintCliques` output. -/
def renderItems {P : Type} (opts : EnumOptions) (r : List P × List (List P)) :
    List (P × String) :=
  r.1.map (fun p => (p, "NE")) ++ (if opts.showConnect then PrintCliques r.2 else [])

/-- The solve phase of the `enummixed` `try` block on an already-read game. -/
def solvePhase {G P : Type} (core : EnumCore G P) (opts : EnumOptions) (g : G) :
    Except String (List (P × String)) :=
  (coreOutcome core opts g).map (renderItems opts)

/-- The `try { ... } catch (std::runtime_error &e)` of `enummixed`
(part_000 lines 145-184): on success return 0; a reader or solver error
is reported as "Error: " plus the message and the run returns 1. -/
def tryRun {G P : Type} (core : EnumCore G P) (opts : EnumOptions)
    (readRes : Except String G) (errs : List String) : MainResult P :=
  match readRes.bind (fun g => solvePhase core opts g) with
  | .ok items => .normal 0 items errs
  | .error e => .normal 1 [] (errs ++ ["Error: " ++ e])

/-- The part of the `enummixed` `main` after the option loop (part_000
lines 128-184): banner unless quiet, input selection, file open (exit 1
on failure), then the `try` block. -/
def afterParse {G P : Type} (core : EnumCore G P) (env : FileEnv G)
    (argv : List String) (opts : EnumOptions) : MainResult P :=
  let errs := if opts.quiet then [] else [enummixedBanner]
  match selectStream argv with
  | .stdin => tryRun core opts env.stdinGame errs
  | .file p =>
    match env.openGame p with
    | none => .normal 1 [] (errs ++ [openFailLine (argv.getD 0 "") p])
    | some r => tryRun core opts r errs

/-- Function `main` of `enummixed` (part_000 lines 77-184). -/
def enummixedRun {G P : Type} (core : EnumCore G P) (env : FileEnv G)
    (argv : List String) : MainResult P :=
  match parseArgs enumStep argv EnumOptions.init with
  | .done opts => afterParse core env argv opts
  | .bannerExit => .normal 1 [] [enummixedBanner]
  | .helpExit => .normal 1 [] [enummixedBanner, usageLine (argv.getD 0 "")]
  | .unknownOpt c => .normal 1 [] [unknownOptionLine (argv.getD 0 "") c]
  | .optAbort => .runAborted
  | .nullAtoi => .undefinedRead

/-- Modelled from the spec: the polymatrix approximation core
(`gambit/nash/ipa.h`, absent from src/).  The spec gives its iteration
shape (per-step polymatrix update, a convergence tolerance test on the
update magnitude, a maximum iteration count, a uniform starting profile);
those pieces are the fields. -/
structure IpaCore (G P : Type) where
  update : G → P → P
  withinTol : G → P → Bool
  maxIter : Nat
  uniformStart : G → P

/-- Modelled from the spec: the iteration loop of the polymatrix solver:
"Repeats until the magnitude of the update falls below a convergence tolerance
or a maximum iteration count is reached", and "signals non-convergence as
a distinct result state (not a fatal error) rather than raising".  The
result is the final profile with a convergence flag; no error can be
signalled. -/
def ipaIterate {P : Type} (update : P → P) (withinTol : P → Bool) :
    Nat → P → P × Bool
  | 0, p => (p, withinTol p)
  | n + 1, p => if withinTol p then (p, true) else ipaIterate update withinTol n (update p)

/-- Modelled from the spec: `NashIPAStrategySolver::Solve` runs the
iteration from the uniform starting profile and renders exactly one
profile. -/
def ipaSolve {G P : Type} (core : IpaCore G P) (g : G) : P × Bool :=
  ipaIterate (core.update g) (core.withinTol g) core.maxIter (core.uniformStart g)

/-- The `try` block of `nfgipa` (nfgipa.cc lines 120-132): a reader error
is caught and reported as "Error: " plus the message with return 1; the
solver itself is total, so a well-formed game always reaches `return 0`
with the one rendered profile. -/
def nfgipaTry {G P : Type} (core : IpaCore G P) (readRes : Except String G)
    (errs : List String) : MainResult P :=
  match readRes with
  | .ok g => .normal 0 [((ipaSolve core g).1, "NE")] errs
  | .error e => .normal 1 [] (errs ++ ["Error: " ++ e])

/-- Function `main` of `nfgipa` (nfgipa.cc lines 60-133). -/
def nfgipaRun {G P : Type} (core : IpaCore G P) (env : FileEnv G)
    (argv : List String) : MainResult P :=
  match parseArgs ipaStep argv IpaOptions.init with
  | .done opts =>
    let errs := if opts.quiet then [] else [ipaBanner]
    match selectStream argv with
    | .stdin => nfgipaTry core env.stdinGame errs
    | .file p =>
      match env.openGame p with
      | none => .normal 1 [] (errs ++ [openFailLine (argv.getD 0 "") p])
      | some r => nfgipaTry core r errs
  | .bannerExit => .normal 1 [] [ipaBanner]
  | .helpExit => .normal 1 [] [ipaBanner, usageLine (argv.getD 0 "")]
  | .unknownOpt c => .normal 1 [] [unknownOptionLine (argv.getD 0 "") c]
  | .optAbort => .runAborted
  | .nullAtoi => .undefinedRead

/-- A two-player strategic-form game in the exact rational domain:
player 1 has `m` pure strategies, player 2 has `n`, with a payoff for
each pure-strategy profile (spec section 3, Game). -/
structure BimatrixGame (m n : Nat) where
  u1 : Fin m → Fin n → ℚ
  u2 : Fin m → Fin n → ℚ

/-- A mixed strategy: non-negative weights summing to 1. -/
def IsMixed {m : Nat} (x : Fin m → ℚ) : Prop :=
  (∀ i, 0 ≤ x i) ∧ ∑ i, x i = 1

/-- The degenerate mixed strategy playing pure strategy `i`. -/
def pureStrat {m : Nat} (i : Fin m) : Fin m → ℚ :=
  fun k => if k = i then 1 else 0

/-- Expected payoff of player 1 under mixed strategies `x`, `y`. -/
def expPay1 {m n : Nat} (g : BimatrixGame m n) (x : Fin m → ℚ) (y : Fin n → ℚ) : ℚ :=
  ∑ i, ∑ j, x i * y j * g.u1 i j

/-- Expected payoff of player 2 under mixed strategies `x`, `y`. -/
def expPay2 {m n : Nat} (g : BimatrixGame m n) (x : Fin m → ℚ) (y : Fin n → ℚ) : ℚ :=
  ∑ i, ∑ j, x i * y j * g.u2 i j

/-- Nash equilibrium: both strategies are mixed and neither player has a
profitable pure deviation (equivalently, every positive-probability
strategy is a best response). -/
def IsNash {m n : Nat} (g : BimatrixGame m n) (x : Fin m → ℚ) (y : Fin n → ℚ) : Prop :=
  IsMixed x ∧ IsMixed y ∧
    (∀ i, expPay1 g (pureStrat i) y ≤ expPay1 g x y) ∧
    (∀ j, expPay2 g x (pureStrat j) ≤ expPay2 g x y)

/-- Modelled from the spec: the exact enumeration path of the core
(`gambit/nash/enummixed.h`, absent from src/) "finds ALL Nash equilibria
of a two-player game"; its set of reported profiles is therefore the set
of Nash equilibria of the game. -/
def enumOutputSet {m n : Nat} (g : BimatrixGame m n) :
    Set ((Fin m → ℚ) × (Fin n → ℚ)) :=
  { σ | IsNash g σ.1 σ.2 }

/-- The 2x2 coordination game of the spec scenario: payoff matrices
[[3,0],[0,2]] for player 1 and [[2,0],[0,3]] for player 2. -/
def coordGame : BimatrixGame 2 2 :=
  { u1 := ![![3, 0], ![0, 2]], u2 := ![![2, 0], ![0, 3]] }

/-- Pipeline states of the enumeration path (spec section 4.6 state
machine: Unsolved, Reducing, Enumerating/Pairing, GroupingCliques,
Solved, Failed). -/
inductive SolveState (G P : Type) where
  | unsolved (g : G)
  | reduced (g : G)
  | enumerated (ps : List P) (cls : List (List P))
  | solvedOut (items : List (P × String))
  | failed (msg : String)

/-- One pipeline step of a single `enummixed` run: the reduction stage
(the front-end hands the game on unchanged), the enumeration/pairing
stage driven by the selected engine, and the rendering stage. -/
inductive SolveStep {G P : Type} (core : EnumCore G P) (opts : EnumOptions) :
    SolveState G P → SolveState G P → Prop where
  | reduce (g : G) : SolveStep core opts (.unsolved g) (.reduced g)
  | enumOk {g : G} {ps : List P} {cls : List (List P)} :
      coreOutcome core opts g = .ok (ps, cls) →
      SolveStep core opts (.reduced g) (.enumerated ps cls)
  | enumErr {g : G} {e : String} :
      coreOutcome core opts g = .error e →
      SolveStep core opts (.reduced g) (.failed e)
  | render (ps : List P) (cls : List (List P)) :
      SolveStep core opts (.enumerated ps cls) (.solvedOut (renderItems opts (ps, cls)))

/-- Reachability in the pipeline step relation. -/
inductive Reaches {G P : Type} (core : EnumCore G P) (opts : EnumOptions) :
    SolveState G P → SolveState G P → Prop where
  | refl (s : SolveState G P) : Reaches core opts s s
  | head {s t u : SolveState G P} :
      SolveStep core opts s t → Reaches core opts t u → Reaches core opts s u

/-- A trivial instantiation of the enumeration core over the unit game
type: one equilibrium, one singleton clique. -/
def coreTriv : EnumCore Unit Unit :=
  { solveDetailedRat := fun _ => .ok ([()], [[()]]),
    solveDetailedFloat := fun _ => .ok ([()], [[()]]) }

/-- An enumeration core whose solvers signal numeric instability. -/
def coreFail : EnumCore Unit Unit :=
  { solveDetailedRat := fun _ => .error "numeric instability",
    solveDetailedFloat := fun _ => .error "numeric instability" }

/-- An environment in which only the file named "g" opens, as a
well-formed game. -/
def envTriv : FileEnv Unit :=
  { openGame := fun p => if p = "g" then some (Except.ok ()) else none,
    stdinGame := .error "stream not readable" }

/-- An environment in which "g" opens but holds a malformed game. -/
def envBad : FileEnv Unit :=
  { openGame := fun p => if p = "g" then some (Except.error "bad game") else none,
    stdinGame := .error "stream not readable" }

/-- A trivial instantiation of the polymatrix core over the unit types. -/
def ipaCoreTriv : IpaCore Unit Unit :=
  { update := fun _ p => p, withinTol := fun _ _ => true,
    maxIter := 10, uniformStart := fun _ => () }

/-- Agreement of two `enummixed` option states on every field except
`eliminate` (the variable set by `-D`). -/
def EnumOptions.agrees (a b : EnumOptions) : Prop :=
  a.useFloat = b.useFloat ∧ a.uselrs = b.uselrs ∧ a.quiet = b.quiet ∧
    a.showConnect = b.showConnect ∧ a.numDecimals = b.numDecimals

/-- Lifting of a relation on option states to switch outcomes: `cont`
states are related, every other outcome is identical. -/
inductive OptStepRel {σ : Type} (R : σ → σ → Prop) : OptStep σ → OptStep σ → Prop where
  | cont {a b : σ} : R a b → OptStepRel R (.cont a) (.cont b)
  | bannerExit : OptStepRel R .bannerExit .bannerExit
  | helpExit : OptStepRel R .helpExit .helpExit
  | unknownOpt (c : Char) : OptStepRel R (.unknownOpt c) (.unknownOpt c)
  | optAbort : OptStepRel R .optAbort .optAbort
  | nullAtoi : OptStepRel R .nullAtoi .nullAtoi

/-- Lifting of a relation on option states to loop results. -/
inductive ParseResultRel {σ : Type} (R : σ → σ → Prop) : ParseResult σ → ParseResult σ → Prop where
  | done {a b : σ} : R a b → ParseResultRel R (.done a) (.done b)
  | bannerExit : ParseResultRel R .bannerExit .bannerExit
  | helpExit : ParseResultRel R .helpExit .helpExit
  | unknownOpt (c : Char) : ParseResultRel R (.unknownOpt c) (.unknownOpt c)
  | optAbort : ParseResultRel R .optAbort .optAbort
  | nullAtoi : ParseResultRel R .nullAtoi .nullAtoi

theorem getD_last_eq_getLast (l : List String) (h : l ≠ []) :
    l.getD (l.length - 1) "" = l.getLast h := by
  have hl := List.length_pos.mpr h
  rw [List.getLast_eq_getElem, List.getD_eq_getElem?_getD,
    List.getElem?_eq_getElem (by omega)]
  rfl

theorem selectStream_file (argv : List String) (h : argv ≠ []) :
    selectStream argv = .file (argv.getLast h) := by
  have hl := List.length_pos.mpr h
  unfold selectStream
  rw [if_pos (by omega), getD_last_eq_getLast argv h]

/-- C3: both front-ends always take the file branch on the last argument
(`optind = argc - 1` makes `optind < argc` hold for every `argc` at least 1):
the game file is `argv[argc-1]`, standard input is never read; with no
arguments the program attempts to open its own name `argv[0]`, and a
trailing option such as `-q` is itself opened as a file, the run exiting 1
when that open fails. -/
theorem lastArg_is_game_file :
    (∀ (argv : List String) (h : argv ≠ []),
        selectStream argv = .file (argv.getLast h) ∧ selectStream argv ≠ .stdin)
    ∧ (∀ (G P : Type) (core : EnumCore G P) (env : FileEnv G) (prog : String),
        env.openGame prog = none →
        enummixedRun core env [prog] =
          .normal 1 [] [enummixedBanner, openFailLine prog prog])
    ∧ (∀ (G P : Type) (core : EnumCore G P) (env : FileEnv G) (prog : String),
        env.openGame "-q" = none →
        enummixedRun core env [prog, "-q"] = .normal 1 [] [openFailLine prog "-q"])
    ∧ (∀ (G P : Type) (core : IpaCore G P) (env : FileEnv G) (prog : String),
        env.openGame prog = none →
        nfgipaRun core env [prog] = .normal 1 [] [ipaBanner, openFailLine prog prog]) := by
  refine ⟨?_, ?_, ?_, ?_⟩
  · intro argv h
    refine ⟨selectStream_file argv h, ?_⟩
    rw [selectStream_file argv h]
    intro hc
    exact InputSource.noConfusion hc
  · intro G P core env prog h
    have e : enummixedRun core env [prog] =
        (match env.openGame prog with
         | none => .normal 1 [] [enummixedBanner, openFailLine prog prog]
         | some r => tryRun core EnumOptions.init r [enummixedBanner]) := rfl
    rw [e, h]
  · intro G P core env prog h
    have e : enummixedRun core env [prog, "-q"] =
        (match env.openGame "-q" with
         | none => .normal 1 [] [openFailLine prog "-q"]
         | some r =>
            tryRun core
              { useFloat := false, uselrs := false, quiet := true, eliminate := true,
                showConnect := false, numDecimals := 6 } r []) := rfl
    rw [e, h]
  · intro G P core env prog h
    have e : nfgipaRun core env [prog] =
        (match env.openGame prog with
         | none => .normal 1 [] [ipaBanner, openFailLine prog prog]
         | some r => nfgipaTry core r [ipaBanner]) := rfl
    rw [e, h]

theorem lastArg_is_game_file_witness :
    selectStream ["enummixed", "game.nfg"] = .file "game.nfg"
    ∧ enummixedRun coreTriv envTriv ["enummixed", "-q"] =
        .normal 1 [] [openFailLine "enummixed" "-q"] :=
  ⟨(lastArg_is_game_file.1 ["enummixed", "game.nfg"] (by decide)).1,
   lastArg_is_game_file.2.2.1 Unit Unit coreTriv envTriv "enummixed" rfl⟩

theorem enumStep_not_handled (s : EnumOptions) (c : Char) (a : Option String)
    (hc : c ∉ (['v', 'd', 'D', 'L', 'h', 'c', 'S', 'q', '?'] : List Char)) :
    enumStep s c a = .optAbort := by
  simp only [List.mem_cons, List.not_mem_nil, or_false, not_or] at hc
  obtain ⟨h1, h2, h3, h4, h5, h6, h7, h8, h9⟩ := hc
  unfold enumStep
  rw [if_neg h1, if_neg h2, if_neg h3, if_neg h4, if_neg h5, if_neg h6,
    if_neg h7, if_neg h8, if_neg h9]

theorem ipaStep_not_handled (s : IpaOptions) (c : Char) (a : Option String)
    (hc : c ∉ (['v', 'q', 'V', 'd', 'S', 'h', '?'] : List Char)) :
    ipaStep s c a = .optAbort := by
  simp only [List.mem_cons, List.not_mem_nil, or_false, not_or] at hc
  obtain ⟨h1, h2, h3, h4, h5, h6, h7⟩ := hc
  unfold ipaStep
  rw [if_neg h1, if_neg h2, if_neg h3, if_neg h4, if_neg h5, if_neg h6, if_neg h7]

theorem enumStep_unknown_iff (s : EnumOptions) (c : Char) (a : Option String) :
    (∃ d, enumStep s c a = .unknownOpt d) ↔ c = '?' := by
  constructor
  · rintro ⟨d, hd⟩
    unfold enumStep at hd
    split_ifs at hd with h1 h2 h3 h4 h5 h6 h7 h8 h9 <;>
      first
      | assumption
      | (rcases a with _ | t <;> simp at hd)
  · intro h
    subst h
    exact ⟨'?', rfl⟩

theorem ipaStep_unknown_iff (s : IpaOptions) (c : Char) (a : Option String) :
    (∃ d, ipaStep s c a = .unknownOpt d) ↔ c = '?' := by
  constructor
  · rintro ⟨d, hd⟩
    unfold ipaStep at hd
    split_ifs at hd with h1 h2 h3 h4 h5 h6 h7 <;>
      first
      | assumption
      | (rcases a with _ | t <;> simp at hd)
  · intro h
    subst h
    exact ⟨'?', rfl⟩

/-- C9: an argument starting with a dash whose second character is not a
handled case label falls through to the `default:` branch and `abort()`s;
in particular every long option such as `--help` or `--version` (second
character a dash) aborts, and the `case '?'` Unknown option diagnostic is
reached only by the literal argument `-?`. -/
theorem option_switch_fallthrough :
    (∀ (s : EnumOptions) (c : Char) (a : Option String),
        c ∉ (['v', 'd', 'D', 'L', 'h', 'c', 'S', 'q', '?'] : List Char) →
        enumStep s c a = .optAbort)
    ∧ (∀ (s : EnumOptions) (c : Char) (a : Option String),
        (∃ d, enumStep s c a = .unknownOpt d) ↔ c = '?')
    ∧ (∀ (s : IpaOptions) (c : Char) (a : Option String),
        c ∉ (['v', 'q', 'V', 'd', 'S', 'h', '?'] : List Char) →
        ipaStep s c a = .optAbort)
    ∧ (∀ (s : IpaOptions) (c : Char) (a : Option String),
        (∃ d, ipaStep s c a = .unknownOpt d) ↔ c = '?')
    ∧ (∀ (G P : Type) (core : EnumCore G P) (env : FileEnv G),
        enummixedRun core env ["enummixed", "--help"] = .runAborted)
    ∧ (∀ (G P : Type) (core : IpaCore G P) (env : FileEnv G),
        nfgipaRun core env ["nfgipa", "--version"] = .runAborted)
    ∧ (∀ (G P : Type) (core : EnumCore G P) (env : FileEnv G),
        enummixedRun core env ["enummixed", "-?"] =
          .normal 1 [] [unknownOptionLine "enummixed" '?']) :=
  ⟨enumStep_not_handled, enumStep_unknown_iff, ipaStep_not_handled, ipaStep_unknown_iff,
   fun _ _ _ _ => rfl, fun _ _ _ _ => rfl, fun _ _ _ _ => rfl⟩

theorem option_switch_fallthrough_witness :
    enumStep EnumOptions.init 'x' none = .optAbort
    ∧ ipaStep IpaOptions.init '-' none = .optAbort
    ∧ ((∃ d, enumStep EnumOptions.init 'D' none = .unknownOpt d) ↔ False) :=
  ⟨option_switch_fallthrough.1 EnumOptions.init 'x' none (by decide),
   option_switch_fallthrough.2.2.1 IpaOptions.init '-' none (by decide),
   by rw [option_switch_fallthrough.2.1 EnumOptions.init 'D' none]; simp⟩

theorem enumStep_nullAtoi_inv (s : EnumOptions) (c : Char) (a : Option String)
    (h : enumStep s c a = .nullAtoi) : c = 'd' ∧ a = none := by
  unfold enumStep at h
  split_ifs at h with h1 h2 h3 h4 h5 h6 h7 h8 h9 <;>
    rcases a with _ | t <;> simp_all

theorem ipaStep_nullAtoi_inv (s : IpaOptions) (c : Char) (a : Option String)
    (h : ipaStep s c a = .nullAtoi) : c = 'd' ∧ a = none := by
  unfold ipaStep at h
  split_ifs at h with h1 h2 h3 h4 h5 h6 h7 <;>
    rcases a with _ | t <;> simp_all

theorem parseGo_no_nullAtoi {σ : Type} (step : σ → Char → Option String → OptStep σ)
    (hstep : ∀ s c a, step s c a = .nullAtoi → c = 'd' ∧ a = none)
    (argv : List String)
    (hp : ∀ j, j < argv.length → cchar (argv.getD j "") 0 = '-' →
        cchar (argv.getD j "") 1 = 'd' → j + 1 < argv.length) :
    ∀ fuel i s, parseGo step argv fuel i s ≠ .nullAtoi := by
  intro fuel
  induction fuel with
  | zero =>
    intro i s h
    simp [parseGo] at h
  | succ n ih =>
    intro i s h
    simp only [parseGo] at h
    split at h
    · exact ih _ _ h
    · rename_i hdash
      split at h
      · exact ih _ _ h
      · simp at h
      · simp at h
      · simp at h
      · simp at h
      · rename_i heq
        obtain ⟨hcd, hnone⟩ := hstep _ _ _ heq
        have hlen : argv.length ≤ i + 1 := List.get?_eq_none.mp hnone
        have hdash' : cchar (argv.getD i "") 0 = '-' := not_not.mp hdash
        have hi : i < argv.length := by
          by_contra hge
          push_neg at hge
          rw [List.getD_eq_default _ _ hge] at hdash'
          revert hdash'
          decide
        have := hp i hi hdash' hcd
        omega

/-- C10: when `-d` is the final argument, the loop sets
`optarg = argv[i + 1] = argv[argc]`, the null terminator of the argument
vector (modelled as `none`), and hands it to `atoi` — an undefined read;
under the precondition that every `-d` is followed by a further argument
this outcome is unreachable, in both front-ends. -/
theorem dashd_final_argument :
    (∀ (argv : List String) (s : EnumOptions) (fuel : Nat),
        cchar (argv.getD (argv.length - 1) "") 0 = '-' →
        cchar (argv.getD (argv.length - 1) "") 1 = 'd' →
        parseGo enumStep argv (fuel + 1) (argv.length - 1) s = .nullAtoi)
    ∧ (∀ (G P : Type) (core : EnumCore G P) (env : FileEnv G),
        enummixedRun core env ["enummixed", "-d"] = .undefinedRead)
    ∧ (∀ (G P : Type) (core : IpaCore G P) (env : FileEnv G),
        nfgipaRun core env ["nfgipa", "-d"] = .undefinedRead)
    ∧ (∀ (argv : List String),
        (∀ j, j < argv.length → cchar (argv.getD j "") 0 = '-' →
            cchar (argv.getD j "") 1 = 'd' → j + 1 < argv.length) →
        (∀ (s : EnumOptions), parseArgs enumStep argv s ≠ .nullAtoi)
        ∧ (∀ (s : IpaOptions), parseArgs ipaStep argv s ≠ .nullAtoi)) := by
  refine ⟨?_, fun _ _ _ _ => rfl, fun _ _ _ _ => rfl, ?_⟩
  · intro argv s fuel h0 h1
    have hne : argv ≠ [] := by
      intro he
      subst he
      revert h0
      decide
    have hl := List.length_pos.mpr hne
    have hsucc : argv.length - 1 + 1 = argv.length := by omega
    simp only [parseGo]
    rw [if_neg (not_not_intro h0), h1, hsucc, List.get?_eq_none.mpr (le_refl _)]
    rfl
  · intro argv hp
    exact ⟨fun s => parseGo_no_nullAtoi enumStep enumStep_nullAtoi_inv argv hp _ _ s,
      fun s => parseGo_no_nullAtoi ipaStep ipaStep_nullAtoi_inv argv hp _ _ s⟩

theorem dashd_final_argument_witness :
    parseGo enumStep ["enummixed", "-d"] 1 1 EnumOptions.init = .nullAtoi
    ∧ parseArgs enumStep ["enummixed", "-d", "6", "g.nfg"] EnumOptions.init ≠ .nullAtoi :=
  ⟨dashd_final_argument.1 ["enummixed", "-d"] EnumOptions.init 0 (by decide) (by decide),
   (dashd_final_argument.2.2.2 ["enummixed", "-d", "6", "g.nfg"] (by decide)).1
      EnumOptions.init⟩

theorem printCliquesGo_eq_enumFrom {P : Type} (cliques : List (List P)) :
    ∀ k, printCliquesGo cliques k =
      ((List.enumFrom k cliques).map
          (fun pr => pr.2.map (fun q => (q, "convex-" ++ toString pr.1)))).flatten := by
  induction cliques with
  | nil => intro k; rfl
  | cons c rest ih =>
    intro k
    simp only [printCliquesGo, List.enumFrom_cons, List.map_cons, List.flatten_cons, ih (k + 1)]

/-- C4: `PrintCliques` renders, for every clique number `cl` (1-based, in
partition order), each of that clique's profiles in stored order with the
label "convex-" followed by `cl`; and the solve phase emits clique output
only when connectedness reporting is requested (otherwise its output is
exactly the "NE"-labelled equilibria). -/
theorem clique_output_labels :
    (∀ (P : Type) (cliques : List (List P)),
        PrintCliques cliques =
          ((List.enumFrom 1 cliques).map
              (fun pr => pr.2.map (fun q => (q, "convex-" ++ toString pr.1)))).flatten)
    ∧ (∀ (G P : Type) (core : EnumCore G P) (opts : EnumOptions) (g : G),
        opts.showConnect = false →
        solvePhase core opts g =
          (coreOutcome core opts g).map (fun r => r.1.map (fun p => (p, "NE")))) := by
  constructor
  · intro P cliques
    exact printCliquesGo_eq_enumFrom cliques 1
  · intro G P core opts g h
    unfold solvePhase
    cases hco : coreOutcome core opts g with
    | error e => rfl
    | ok r => simp [Except.map, renderItems, h]

theorem clique_output_labels_witness :
    PrintCliques [[0], [1, 2]] = [(0, "convex-1"), (1, "convex-2"), (2, "convex-2")]
    ∧ solvePhase coreTriv EnumOptions.init () = .ok [((), "NE")] :=
  ⟨by rw [clique_output_labels.1 Nat [[0], [1, 2]]]; decide,
   clique_output_labels.2 Unit Unit coreTriv EnumOptions.init () rfl⟩

/-- C5: a failure signalled inside the `try` block (malformed game from
the reader or a runtime error from the solver) is caught, reported on
stderr as "Error: " followed by the descriptive message, and the process
returns the non-zero status 1; a run whose read and solve succeed returns
status 0; in both front-ends. -/
theorem runtime_error_reporting :
    (∀ (G P : Type) (core : EnumCore G P) (env : FileEnv G) (argv : List String)
        (opts : EnumOptions) (r : Except String G) (e : String) (hne : argv ≠ []),
        parseArgs enumStep argv EnumOptions.init = .done opts →
        env.openGame (argv.getLast hne) = some r →
        r.bind (fun g => solvePhase core opts g) = .error e →
        enummixedRun core env argv =
          .normal 1 []
            ((if opts.quiet then [] else [enummixedBanner]) ++ ["Error: " ++ e]))
    ∧ (∀ (G P : Type) (core : EnumCore G P) (env : FileEnv G) (argv : List String)
        (opts : EnumOptions) (r : Except String G) (items : List (P × String))
        (hne : argv ≠ []),
        parseArgs enumStep argv EnumOptions.init = .done opts →
        env.openGame (argv.getLast hne) = some r →
        r.bind (fun g => solvePhase core opts g) = .ok items →
        enummixedRun core env argv =
          .normal 0 items (if opts.quiet then [] else [enummixedBanner]))
    ∧ (∀ (G P : Type) (core : IpaCore G P) (env : FileEnv G) (argv : List String)
        (opts : IpaOptions) (e : String) (hne : argv ≠ []),
        parseArgs ipaStep argv IpaOptions.init = .done opts →
        env.openGame (argv.getLast hne) = some (.error e) →
        nfgipaRun core env argv =
          .normal 1 []
            ((if opts.quiet then [] else [ipaBanner]) ++ ["Error: " ++ e])) := by
  refine ⟨?_, ?_, ?_⟩
  · intro G P core env argv opts r e hne hparse hopen hsolve
    unfold enummixedRun afterParse
    simp only [hparse, selectStream_file argv hne, hopen]
    unfold tryRun
    rw [hsolve]
  · intro G P core env argv opts r items hne hparse hopen hsolve
    unfold enummixedRun afterParse
    simp only [hparse, selectStream_file argv hne, hopen]
    unfold tryRun
    rw [hsolve]
  · intro G P core env argv opts e hne hparse hopen
    unfold nfgipaRun
    simp only [hparse, selectStream_file argv hne, hopen]
    rfl

theorem runtime_error_reporting_witness :
    enummixedRun coreFail envTriv ["enummixed", "g"] =
      .normal 1 [] [enummixedBanner, "Error: numeric instability"]
    ∧ nfgipaRun ipaCoreTriv envBad ["nfgipa", "g"] =
        .normal 1 [] [ipaBanner, "Error: bad game"] :=
  ⟨runtime_error_reporting.1 Unit Unit coreFail envTriv ["enummixed", "g"]
      EnumOptions.init (.ok ()) "numeric instability" (by decide) rfl rfl rfl,
   runtime_error_reporting.2.2 Unit Unit ipaCoreTriv envBad ["nfgipa", "g"]
      IpaOptions.init "bad game" (by decide) rfl rfl⟩

/-- C6: on a well-formed game the polymatrix approximation path returns
exactly one approximate profile and a Boolean convergence indicator (its
result type has no error case, so non-convergence is a result state, not
an exception), and the `nfgipa` run reaches `return 0`. -/
theorem ipa_no_unhandled_error :
    (∀ (G P : Type) (core : IpaCore G P) (g : G) (errs : List String),
        nfgipaTry core (.ok g) errs = .normal 0 [((ipaSolve core g).1, "NE")] errs)
    ∧ (∀ (G P : Type) (core : IpaCore G P) (g : G),
        (ipaSolve core g).2 = true ∨ (ipaSolve core g).2 = false)
    ∧ (∀ (G P : Type) (core : IpaCore G P) (env : FileEnv G) (argv : List String)
        (opts : IpaOptions) (g : G) (hne : argv ≠ []),
        parseArgs ipaStep argv IpaOptions.init = .done opts →
        env.openGame (argv.getLast hne) = some (.ok g) →
        nfgipaRun core env argv =
          .normal 0 [((ipaSolve core g).1, "NE")]
            (if opts.quiet then [] else [ipaBanner])) := by
  refine ⟨fun _ _ _ _ _ => rfl, ?_, ?_⟩
  · intro G P core g
    cases h : (ipaSolve core g).2
    · exact Or.inr rfl
    · exact Or.inl rfl
  · intro G P core env argv opts g hne hparse hopen
    unfold nfgipaRun
    simp only [hparse, selectStream_file argv hne, hopen]
    rfl

theorem ipa_no_unhandled_error_witness :
    nfgipaRun ipaCoreTriv envTriv ["nfgipa", "g"] = .normal 0 [((), "NE")] [ipaBanner] :=
  ipa_no_unhandled_error.2.2 Unit Unit ipaCoreTriv envTriv ["nfgipa", "g"]
    IpaOptions.init () (by decide) rfl rfl

theorem solveStep_det {G P : Type} (core : EnumCore G P) (opts : EnumOptions)
    {s t u : SolveState G P} (h1 : SolveStep core opts s t)
    (h2 : SolveStep core opts s u) : t = u := by
  cases h1 with
  | reduce g =>
    cases h2 with
    | reduce => rfl
  | enumOk h =>
    cases h2 with
    | enumOk h' =>
      rw [h] at h'
      injection h' with hh
      injection hh with hps hcls
      rw [hps, hcls]
    | enumErr h' =>
      rw [h] at h'
      exact absurd h' (by simp)
  | enumErr h =>
    cases h2 with
    | enumOk h' =>
      rw [h] at h'
      exact absurd h' (by simp)
    | enumErr h' =>
      rw [h] at h'
      injection h' with hh
      rw [hh]
  | render ps cls =>
    cases h2 with
    | render => rfl

theorem reaches_solved_det {G P : Type} (core : EnumCore G P) (opts : EnumOptions)
    {s : SolveState G P} {o₁ o₂ : List (P × String)}
    (h1 : Reaches core opts s (.solvedOut o₁))
    (h2 : Reaches core opts s (.solvedOut o₂)) : o₁ = o₂ := by
  have aux : ∀ (s t : SolveState G P), Reaches core opts s t →
      ∀ (a : List (P × String)), t = .solvedOut a →
      ∀ (b : List (P × String)), Reaches core opts s (.solvedOut b) → a = b := by
    intro s t h
    induction h with
    | refl u =>
      intro a ht b h2
      subst ht
      cases h2 with
      | refl => rfl
      | head hstep _ => cases hstep
    | head hstep htail ih =>
      intro a ht b h2
      subst ht
      cases h2 with
      | refl => cases hstep
      | head hstep' htail' =>
        have he := solveStep_det core opts hstep hstep'
        subst he
        exact ih a rfl b htail'
  exact aux s (.solvedOut o₁) h1 o₁ rfl o₂ h2

/-- C8: the enumeration pipeline of a single run (reduction stage, engine
enumeration and pairing, clique grouping and rendering) is deterministic:
any two executions of the step relation from the same game and option
configuration that reach a solved state carry identical rendered output
(equilibrium sequence and clique lines); moreover an execution reaching
exactly the output of the solve function exists whenever the engine
succeeds. -/
theorem enumeration_run_deterministic :
    (∀ (G P : Type) (core : EnumCore G P) (opts : EnumOptions) (g : G)
        (o₁ o₂ : List (P × String)),
        Reaches core opts (.unsolved g) (.solvedOut o₁) →
        Reaches core opts (.unsolved g) (.solvedOut o₂) → o₁ = o₂)
    ∧ (∀ (G P : Type) (core : EnumCore G P) (opts : EnumOptions) (g : G)
        (ps : List P) (cls : List (List P)),
        coreOutcome core opts g = .ok (ps, cls) →
        Reaches core opts (.unsolved g) (.solvedOut (renderItems opts (ps, cls)))
        ∧ solvePhase core opts g = .ok (renderItems opts (ps, cls))) := by
  constructor
  · intro G P core opts g o₁ o₂ h1 h2
    exact reaches_solved_det core opts h1 h2
  · intro G P core opts g ps cls h
    refine ⟨.head (.reduce g) (.head (.enumOk h) (.head (.render ps cls) (.refl _))), ?_⟩
    unfold solvePhase
    rw [h]
    rfl

theorem enumeration_run_deterministic_witness :
    ([((), "NE")] : List (Unit × String)) = [((), "NE")] := by
  have d := (enumeration_run_deterministic.2 Unit Unit coreTriv EnumOptions.init ()
    [()] [[()]] rfl).1
  exact enumeration_run_deterministic.1 Unit Unit coreTriv EnumOptions.init () _ _ d d

/-- C2 (amended): with the same rational engine outcome, the lrs path
reports the same equilibria as the exact path, but produces no clique
output even when connectedness reporting is requested (`Solve` is called
instead of `SolveDetailed` and the `-c` branch exists only on the
non-lrs paths). -/
theorem lrs_same_equilibria_no_cliques :
    ∀ (G P : Type) (core : EnumCore G P) (opts : EnumOptions) (g : G)
      (ps : List P) (cls : List (List P)),
      opts.useFloat = false →
      core.solveDetailedRat g = .ok (ps, cls) →
      solvePhase core { opts with uselrs := true } g = .ok (ps.map (fun p => (p, "NE")))
      ∧ solvePhase core { opts with uselrs := false } g =
          .ok (ps.map (fun p => (p, "NE"))
            ++ (if opts.showConnect then PrintCliques cls else [])) := by
  intro G P core opts g ps cls hf h
  constructor
  · simp [solvePhase, coreOutcome, renderItems, h, Except.map, PrintCliques, printCliquesGo]
  · simp [solvePhase, coreOutcome, renderItems, h, hf, Except.map]

theorem lrs_same_equilibria_no_cliques_witness :
    solvePhase coreTriv
        { useFloat := false, uselrs := true, quiet := false, eliminate := true,
          showConnect := true, numDecimals := 6 } () = .ok [((), "NE")]
    ∧ solvePhase coreTriv
        { useFloat := false, uselrs := false, quiet := false, eliminate := true,
          showConnect := true, numDecimals := 6 } () =
        .ok [((), "NE"), ((), "convex-1")] := by
  have h := lrs_same_equilibria_no_cliques Unit Unit coreTriv
    { useFloat := false, uselrs := false, quiet := false, eliminate := true,
      showConnect := true, numDecimals := 6 } () [()] [[()]] rfl rfl
  exact ⟨h.1, h.2.trans rfl⟩

/-- C2 counterexample: with connectedness reporting requested, the lrs
engine selection and the exact engine selection do not produce the same
output on a game with one equilibrium in one clique — the exact path
renders a "convex-1" line, the lrs path does not. -/
theorem lrs_clique_output_counterexample :
    ¬ (solvePhase coreTriv
          { useFloat := false, uselrs := true, quiet := false, eliminate := true,
            showConnect := true, numDecimals := 6 } ()
        = solvePhase coreTriv
          { useFloat := false, uselrs := false, quiet := false, eliminate := true,
            showConnect := true, numDecimals := 6 } ()) := by
  intro h
  have e1 : solvePhase coreTriv
      { useFloat := false, uselrs := true, quiet := false, eliminate := true,
        showConnect := true, numDecimals := 6 } () =
      Except.ok [((), "NE")] := rfl
  have e2 : solvePhase coreTriv
      { useFloat := false, uselrs := false, quiet := false, eliminate := true,
        showConnect := true, numDecimals := 6 } () =
      Except.ok [((), "NE"), ((), "convex-1")] := rfl
  rw [e1, e2] at h
  have h2 := Except.ok.inj h
  simp at h2

set_option maxHeartbeats 1000000 in
theorem enumStep_agrees {s s' : EnumOptions} (h : s.agrees s') (c : Char) (a : Option String) :
    OptStepRel EnumOptions.agrees (enumStep s c a) (enumStep s' c a) := by
  obtain ⟨h1, h2, h3, h4, h5⟩ := h
  unfold enumStep
  split_ifs
  · exact .bannerExit
  · rcases a with _ | t
    · exact .nullAtoi
    · exact .cont ⟨rfl, h2, h3, h4, rfl⟩
  · exact .cont ⟨h1, h2, h3, h4, h5⟩
  · exact .cont ⟨h1, rfl, h3, h4, h5⟩
  · exact .helpExit
  · exact .cont ⟨h1, h2, h3, rfl, h5⟩
  · exact .cont ⟨h1, h2, h3, h4, h5⟩
  · exact .cont ⟨h1, h2, rfl, h4, h5⟩
  · exact .unknownOpt _
  · exact .optAbort

theorem parseGo_agrees (argv₁ argv₂ : List String) :
    ∀ (fuel i : Nat) (s s' : EnumOptions), s.agrees s' →
      (∀ j, i ≤ j → argv₁.get? j = argv₂.get? j) →
      ParseResultRel EnumOptions.agrees
        (parseGo enumStep argv₁ fuel i s) (parseGo enumStep argv₂ fuel i s') := by
  intro fuel
  induction fuel with
  | zero =>
    intro i s s' hss _
    exact .done hss
  | succ n ih =>
    intro i s s' hss hagree
    have hai : argv₁.getD i "" = argv₂.getD i "" := by
      rw [List.getD_eq_getElem?_getD, List.getD_eq_getElem?_getD,
        ← List.get?_eq_getElem?, ← List.get?_eq_getElem?, hagree i (le_refl i)]
    have harg : argv₁.get? (i + 1) = argv₂.get? (i + 1) := hagree (i + 1) (by omega)
    simp only [parseGo, hai, harg]
    by_cases hC : cchar (argv₂.getD i "") 0 ≠ '-'
    · rw [if_pos hC, if_pos hC]
      exact ih (i + 1) s s' hss (fun j hj => hagree j (by omega))
    · rw [if_neg hC, if_neg hC]
      have hrel := enumStep_agrees hss (cchar (argv₂.getD i "") 1) (argv₂.get? (i + 1))
      revert hrel
      generalize enumStep s (cchar (argv₂.getD i "") 1) (argv₂.get? (i + 1)) = X
      generalize enumStep s' (cchar (argv₂.getD i "") 1) (argv₂.get? (i + 1)) = Y
      intro hrel
      cases hrel with
      | cont hcc => exact ih (i + 1) _ _ hcc (fun j hj => hagree j (by omega))
      | bannerExit => exact .bannerExit
      | helpExit => exact .helpExit
      | unknownOpt c => exact .unknownOpt c
      | optAbort => exact .optAbort
      | nullAtoi => exact .nullAtoi

theorem solvePhase_agrees {G P : Type} (core : EnumCore G P) {a b : EnumOptions}
    (h : a.agrees b) (g : G) : solvePhase core a g = solvePhase core b g := by
  obtain ⟨h1, h2, h3, h4, h5⟩ := h
  unfold solvePhase coreOutcome renderItems
  simp only [h1, h2, h4]

theorem afterParse_agrees {G P : Type} (core : EnumCore G P) (env : FileEnv G)
    (argv₁ argv₂ : List String) {a b : EnumOptions} (hab : a.agrees b)
    (hsel : selectStream argv₁ = selectStream argv₂)
    (h0 : argv₁.getD 0 "" = argv₂.getD 0 "") :
    afterParse core env argv₁ a = afterParse core env argv₂ b := by
  have hsp : (fun g => solvePhase core a g) = (fun g => solvePhase core b g) :=
    funext (fun g => solvePhase_agrees core hab g)
  obtain ⟨h1, h2, h3, h4, h5⟩ := hab
  unfold afterParse tryRun
  simp only [hsel, h0, h3, hsp]

theorem selectStream_cons₂ (x y : String) (l : List String) (h : l ≠ []) :
    selectStream (x :: y :: l) = selectStream l := by
  rw [selectStream_file _ (by simp), selectStream_file l h]
  rw [List.getLast_cons (by simp), List.getLast_cons h]

/-- C1 (code behavior at the failing input): the `eliminate` variable set
by `-D` is never read after the option loop — the solve phase is
invariant under its value, and a full run with `-D` is indistinguishable
from a run with the no-op option `-S`; the flag does not determine
whether the enumeration operates on a reduced or the original game (the
solvers are invoked on the game exactly as read, on every path). -/
theorem eliminate_flag_unused :
    (∀ (G P : Type) (core : EnumCore G P) (opts : EnumOptions) (b : Bool) (g : G),
        solvePhase core { opts with eliminate := b } g = solvePhase core opts g)
    ∧ (∀ (G P : Type) (core : EnumCore G P) (env : FileEnv G) (prog : String)
        (rest : List String), rest ≠ [] →
        enummixedRun core env (prog :: "-D" :: rest) =
          enummixedRun core env (prog :: "-S" :: rest)) := by
  constructor
  · intro G P core opts b g
    exact solvePhase_agrees core ⟨rfl, rfl, rfl, rfl, rfl⟩ g
  · intro G P core env prog rest hne
    have hagree : ∀ j, 2 ≤ j →
        (prog :: "-D" :: rest).get? j = (prog :: "-S" :: rest).get? j := by
      intro j hj
      obtain ⟨k, rfl⟩ : ∃ k, j = k + 2 := ⟨j - 2, by omega⟩
      rfl
    have e1 : parseArgs enumStep (prog :: "-D" :: rest) EnumOptions.init =
        parseGo enumStep (prog :: "-D" :: rest) rest.length 2
          { useFloat := false, uselrs := false, quiet := false, eliminate := false,
            showConnect := false, numDecimals := 6 } := rfl
    have e2 : parseArgs enumStep (prog :: "-S" :: rest) EnumOptions.init =
        parseGo enumStep (prog :: "-S" :: rest) rest.length 2 EnumOptions.init := rfl
    have hp : ParseResultRel EnumOptions.agrees
        (parseArgs enumStep (prog :: "-D" :: rest) EnumOptions.init)
        (parseArgs enumStep (prog :: "-S" :: rest) EnumOptions.init) := by
      rw [e1, e2]
      exact parseGo_agrees _ _ rest.length 2 _ _ ⟨rfl, rfl, rfl, rfl, rfl⟩ hagree
    have hsel : selectStream (prog :: "-D" :: rest) = selectStream (prog :: "-S" :: rest) := by
      rw [selectStream_cons₂ _ _ rest hne, selectStream_cons₂ _ _ rest hne]
    unfold enummixedRun
    revert hp
    generalize parseArgs enumStep (prog :: "-D" :: rest) EnumOptions.init = X
    generalize parseArgs enumStep (prog :: "-S" :: rest) EnumOptions.init = Y
    intro hp
    cases hp with
    | done hab => exact afterParse_agrees core env _ _ hab hsel rfl
    | bannerExit => rfl
    | helpExit => rfl
    | unknownOpt c => rfl
    | optAbort => rfl
    | nullAtoi => rfl

theorem eliminate_flag_unused_witness :
    enummixedRun coreTriv envTriv ["enummixed", "-D", "g"] =
      enummixedRun coreTriv envTriv ["enummixed", "-S", "g"] :=
  eliminate_flag_unused.2 Unit Unit coreTriv envTriv "enummixed" ["g"] (by decide)

theorem expPay1_coord (x y : Fin 2 → ℚ) :
    expPay1 coordGame x y = 3 * (x 0 * y 0) + 2 * (x 1 * y 1) := by
  unfold expPay1 coordGame
  simp [Fin.sum_univ_two, Matrix.cons_val_zero, Matrix.cons_val_one, Matrix.head_cons]
  ring

theorem expPay2_coord (x y : Fin 2 → ℚ) :
    expPay2 coordGame x y = 2 * (x 0 * y 0) + 3 * (x 1 * y 1) := by
  unfold expPay2 coordGame
  simp [Fin.sum_univ_two, Matrix.cons_val_zero, Matrix.cons_val_one, Matrix.head_cons]
  ring

theorem funext2_iff (x : Fin 2 → ℚ) (a b : ℚ) : x = ![a, b] ↔ x 0 = a ∧ x 1 = b := by
  constructor
  · rintro rfl
    exact ⟨rfl, rfl⟩
  · rintro ⟨h0, h1⟩
    funext i
    fin_cases i
    · exact h0
    · exact h1

theorem isNash_coord_iff (x y : Fin 2 → ℚ) :
    IsNash coordGame x y ↔
      ((0 ≤ x 0 ∧ 0 ≤ x 1) ∧ x 0 + x 1 = 1) ∧ ((0 ≤ y 0 ∧ 0 ≤ y 1) ∧ y 0 + y 1 = 1) ∧
      (3 * y 0 ≤ 3 * (x 0 * y 0) + 2 * (x 1 * y 1)) ∧
      (2 * y 1 ≤ 3 * (x 0 * y 0) + 2 * (x 1 * y 1)) ∧
      (2 * x 0 ≤ 2 * (x 0 * y 0) + 3 * (x 1 * y 1)) ∧
      (3 * x 1 ≤ 2 * (x 0 * y 0) + 3 * (x 1 * y 1)) := by
  unfold IsNash IsMixed
  simp only [Fin.forall_fin_two, Fin.sum_univ_two, expPay1_coord, expPay2_coord,
    show pureStrat (0 : Fin 2) 0 = 1 from rfl, show pureStrat (0 : Fin 2) 1 = 0 from rfl,
    show pureStrat (1 : Fin 2) 0 = 0 from rfl, show pureStrat (1 : Fin 2) 1 = 1 from rfl,
    one_mul, zero_mul, mul_zero, mul_one, add_zero, zero_add]
  tauto

theorem coord_pq (p q : ℚ) (hp0 : 0 ≤ p) (hp1 : p ≤ 1) (hq0 : 0 ≤ q) (hq1 : q ≤ 1)
    (e1 : 3 * q ≤ 3 * (p * q) + 2 * ((1 - p) * (1 - q)))
    (e2 : 2 * (1 - q) ≤ 3 * (p * q) + 2 * ((1 - p) * (1 - q)))
    (e3 : 2 * p ≤ 2 * (p * q) + 3 * ((1 - p) * (1 - q)))
    (e4 : 3 * (1 - p) ≤ 2 * (p * q) + 3 * ((1 - p) * (1 - q))) :
    (p = 1 ∧ q = 1) ∨ (p = 0 ∧ q = 0) ∨ (p = 3 / 5 ∧ q = 2 / 5) := by
  have ha : (1 - p) * (5 * q - 2) ≤ 0 := by nlinarith
  have hb : p * (2 - 5 * q) ≤ 0 := by nlinarith
  have hc : (1 - q) * (5 * p - 3) ≤ 0 := by nlinarith
  have hd : q * (3 - 5 * p) ≤ 0 := by nlinarith
  rcases lt_trichotomy q (2 / 5) with h | h | h
  · right; left
    have hple : p ≤ 0 := by nlinarith
    have hp : p = 0 := le_antisymm hple hp0
    subst hp
    have hqle : q ≤ 0 := by nlinarith
    exact ⟨rfl, le_antisymm hqle hq0⟩
  · right; right
    subst h
    have hle : p ≤ 3 / 5 := by nlinarith
    have hge : 3 / 5 ≤ p := by nlinarith
    exact ⟨le_antisymm hle hge, rfl⟩
  · left
    have hge : 1 ≤ p := by nlinarith
    have hp : p = 1 := le_antisymm hp1 hge
    subst hp
    have hq : 1 ≤ q := by nlinarith
    exact ⟨rfl, le_antisymm hq1 hq⟩

/-- C7 (amended): in the exact rational domain the enumeration output set
of the 2x2 coordination game with payoff matrices [[3,0],[0,2]] and
[[2,0],[0,3]] is exactly three equilibria: the two pure profiles, and one
mixed profile with player weights (3/5, 2/5) for player 1 and (2/5, 3/5)
for player 2. -/
theorem coordination_game_equilibria :
    ∀ (x y : Fin 2 → ℚ),
      (x, y) ∈ enumOutputSet coordGame ↔
        (x = ![1, 0] ∧ y = ![1, 0]) ∨ (x = ![0, 1] ∧ y = ![0, 1]) ∨
        (x = ![3 / 5, 2 / 5] ∧ y = ![2 / 5, 3 / 5]) := by
  intro x y
  have hmem : (x, y) ∈ enumOutputSet coordGame ↔ IsNash coordGame x y := Iff.rfl
  rw [hmem, isNash_coord_iff]
  simp only [funext2_iff]
  constructor
  · rintro ⟨⟨⟨hx0, hx1⟩, hxs⟩, ⟨⟨hy0, hy1⟩, hys⟩, e1, e2, e3, e4⟩
    have hx1e : x 1 = 1 - x 0 := by linarith
    have hy1e : y 1 = 1 - y 0 := by linarith
    rw [hx1e, hy1e] at e1 e2 e3 e4
    have hkey := coord_pq (x 0) (y 0) hx0 (by linarith) hy0 (by linarith) e1 e2 e3 e4
    rcases hkey with ⟨hp, hq⟩ | ⟨hp, hq⟩ | ⟨hp, hq⟩
    · exact Or.inl ⟨⟨hp, by linarith⟩, hq, by linarith⟩
    · exact Or.inr (Or.inl ⟨⟨hp, by linarith⟩, hq, by linarith⟩)
    · exact Or.inr (Or.inr ⟨⟨hp, by linarith⟩, hq, by linarith⟩)
  · rintro (⟨⟨hx0, hx1⟩, hy0, hy1⟩ | ⟨⟨hx0, hx1⟩, hy0, hy1⟩ | ⟨⟨hx0, hx1⟩, hy0, hy1⟩) <;>
      rw [hx0, hx1, hy0, hy1] <;> norm_num

/-- C7 counterexample: the mixed profile claimed by the spec, player
weights (2/5, 3/5) for player 1 and (3/5, 2/5) for player 2, is not a
Nash equilibrium of the coordination game and so is not in the
enumeration output: the first pure strategy of player 1 earns 9/5 against
(3/5, 2/5) while the claimed profile earns only 6/5. -/
theorem coordination_game_claimed_mixed_not_equilibrium :
    ((![2 / 5, 3 / 5], ![3 / 5, 2 / 5]) : (Fin 2 → ℚ) × (Fin 2 → ℚ)) ∉
      enumOutputSet coordGame := by
  intro h
  obtain ⟨-, -, h1, -⟩ := h
  have h0 := h1 0
  rw [expPay1_coord, expPay1_coord] at h0
  rw [show pureStrat (0 : Fin 2) 0 = 1 from rfl, show pureStrat (0 : Fin 2) 1 = 0 from rfl]
    at h0
  norm_num [Matrix.cons_val_zero, Matrix.cons_val_one, Matrix.head_cons] at h0
